import Mathlib

/-!
Verification development for the Saudi stock-monitor engine (`src/app.py`).

The engine is embedded shallowly:

* pandas `DataFrame` columns become Lean `List`s, one entry per bar, in
  chronological order;
* `float64` values become exact rationals `ℚ`; a pandas `NaN` entry becomes
  `none` in a `List (Option ℚ)` column, and a float comparison involving
  `NaN` (which is `False` in Python) becomes a comparison on `Option ℚ`
  that returns `false` when either side is `none`;
* Python `round(x, k)` becomes exact decimal rounding of the rational;
* a Python function that returns `None` ("not computable") becomes an
  `Option`-returning function, and a Python exception becomes the `error`
  case of an `Except`.
-/

/-- One trading period: the `Open/High/Low/Close/Volume` columns of a row of
the yfinance data frame. -/
structure Bar where
  Open : ℚ
  High : ℚ
  Low : ℚ
  Close : ℚ
  Volume : ℚ
deriving DecidableEq

/-- The close column of a bar series (`df['Close']`). -/
def closes (stock : List Bar) : List ℚ := stock.map Bar.Close

/-- The high column of a bar series (`df['High']`). -/
def highs (stock : List Bar) : List ℚ := stock.map Bar.High

/-- The volume column of a bar series (`df['Volume']`). -/
def volumes (stock : List Bar) : List ℚ := stock.map Bar.Volume

/-- `Series.diff()`: first entry is `NaN` (`none`), entry `i` (for `i ≥ 1`) is
`x[i] - x[i-1]`. -/
def diffCol (xs : List ℚ) : List (Option ℚ) :=
  match xs with
  | [] => []
  | _ :: _ => none :: List.zipWith (fun cur prev => some (cur - prev)) xs.tail xs

/-- `Series.rolling(window=w).mean()`: `NaN` (`none`) for the first `w - 1`
positions, then the arithmetic mean of the trailing `w` entries. -/
def rollingMean (w : ℕ) (xs : List ℚ) : List (Option ℚ) :=
  (List.range xs.length).map (fun i =>
    if i + 1 < w then none
    else some ((((xs.take (i + 1)).drop (i + 1 - w)).sum) / (w : ℚ)))

/-- `Series.rolling(window=w).var()` with the pandas default `ddof = 1`
(sample variance): `NaN` (`none`) for the first `w - 1` positions, then the
sample variance of the trailing `w` entries.  The source uses the rolling
*standard deviation* `bb_std = sqrt` of this; since `sqrt` leaves `ℚ`, the
development carries the variance and compares against squared quantities
(see `gtUpperBand` and `gtUpperBand_eq_true_iff`). -/
def rollingVar (w : ℕ) (xs : List ℚ) : List (Option ℚ) :=
  (List.range xs.length).map (fun i =>
    if i + 1 < w then none
    else some
      (let win := (xs.take (i + 1)).drop (i + 1 - w)
       let m := win.sum / (w : ℚ)
       ((win.map (fun x => (x - m) ^ 2)).sum) / ((w : ℚ) - 1)))

/-- `Series.cumsum()` (auxiliary accumulator form). -/
def cumsumAux (acc : ℚ) : List ℚ → List ℚ
  | [] => []
  | x :: xs => (acc + x) :: cumsumAux (acc + x) xs

/-- `Series.cumsum()`. -/
def cumsum (xs : List ℚ) : List ℚ := cumsumAux 0 xs

/-- `Series.ewm(span=s, adjust=False).mean()` recurrence after the seed
(auxiliary): `y_i = a * x_i + (1 - a) * y_(i-1)`. -/
def emaAux (a : ℚ) (prev : ℚ) : List ℚ → List ℚ
  | [] => []
  | x :: xs => (a * x + (1 - a) * prev) :: emaAux a (a * x + (1 - a) * prev) xs

/-- `Series.ewm(span=s, adjust=False).mean()`: smoothing factor
`a = 2 / (span + 1)`, seeded by the first value. -/
def ewmMean (span : ℕ) (xs : List ℚ) : List ℚ :=
  match xs with
  | [] => []
  | x :: rest => x :: emaAux (2 / ((span : ℚ) + 1)) x rest

/-- `np.sign` on a (non-`NaN`) float. -/
def npSign (q : ℚ) : ℚ := if 0 < q then 1 else if q < 0 then -1 else 0

/-- `gain = (delta.where(delta > 0, 0)).rolling(window=14).mean()`'s
pre-rolling series: a `NaN` delta fails the `> 0` test, so `where` replaces
it (and every non-positive delta) by `0`. -/
def gainCol (cs : List ℚ) : List ℚ :=
  (diffCol cs).map (fun d => match d with
    | none => 0
    | some d => if 0 < d then d else 0)

/-- `loss = (-delta.where(delta < 0, 0)).rolling(window=14).mean()`'s
pre-rolling series: negated negative deltas, `0` elsewhere (including the
`NaN` first delta). -/
def lossCol (cs : List ℚ) : List ℚ :=
  (diffCol cs).map (fun d => match d with
    | none => 0
    | some d => if d < 0 then -d else 0)

/-- `df['RSI'] = 100 - (100 / (1 + rs))` with `rs = gain / loss` over the
rolling 14-bar means.  Float semantics of the division, reproduced exactly:
when the average loss is `0` and the average gain is positive, `rs` is
`inf` and the RSI is exactly `100`; when both averages are `0`, `rs` is
`NaN` and the RSI is `NaN` (`none`). -/
def RSI_col (cs : List ℚ) : List (Option ℚ) :=
  List.zipWith
    (fun g l => match g, l with
      | some g, some l =>
        if l = 0 then (if g = 0 then none else some 100)
        else some (100 - 100 / (1 + g / l))
      | _, _ => none)
    (rollingMean 14 (gainCol cs)) (rollingMean 14 (lossCol cs))

/-- `df['MACD'] = exp1 - exp2` where `exp1/exp2` are the span-12/span-26
exponential means of the close. -/
def MACD_col (cs : List ℚ) : List ℚ :=
  List.zipWith (fun a b => a - b) (ewmMean 12 cs) (ewmMean 26 cs)

/-- `df['Signal_Line']`: span-9 exponential mean of the MACD line. -/
def Signal_col (cs : List ℚ) : List ℚ := ewmMean 9 (MACD_col cs)

/-- `df['BB_Middle']`: 20-period rolling mean of the close. -/
def BB_Middle_col (cs : List ℚ) : List (Option ℚ) := rollingMean 20 cs

/-- `bb_std ** 2`: the 20-period rolling sample variance of the close
(see `rollingVar` for why the square is carried). -/
def bb_var_col (cs : List ℚ) : List (Option ℚ) := rollingVar 20 cs

/-- `df['OBV'] = (np.sign(df['Close'].diff()) * df['Volume']).fillna(0).cumsum()`.
The first product is `NaN * volume = NaN`, turned into `0` by `fillna`. -/
def OBV_col (cs vols : List ℚ) : List ℚ :=
  cumsum (List.zipWith
    (fun d v => match d with
      | none => 0
      | some d => npSign d * v)
    (diffCol cs) vols)

/-- The indicator columns `calculate_indicators` attaches to the frame. -/
structure Indicators where
  MA20 : List (Option ℚ)
  MA50 : List (Option ℚ)
  MA100 : List (Option ℚ)
  MA200 : List (Option ℚ)
  RSI : List (Option ℚ)
  MACD : List ℚ
  Signal_Line : List ℚ
  BB_Middle : List (Option ℚ)
  bb_var : List (Option ℚ)
  OBV : List ℚ
  Volume_MA20 : List (Option ℚ)
deriving DecidableEq

/-- `calculate_indicators(df)`: for a series that is empty or shorter than
200 bars the source returns the frame unchanged, i.e. *without* any
indicator columns; that absence of an indicator set is modelled as `none`.
Otherwise every column is attached. -/
def calculate_indicators (stock : List Bar) : Option Indicators :=
  if stock.length < 200 then none
  else some
    { MA20 := rollingMean 20 (closes stock)
      MA50 := rollingMean 50 (closes stock)
      MA100 := rollingMean 100 (closes stock)
      MA200 := rollingMean 200 (closes stock)
      RSI := RSI_col (closes stock)
      MACD := MACD_col (closes stock)
      Signal_Line := Signal_col (closes stock)
      BB_Middle := BB_Middle_col (closes stock)
      bb_var := bb_var_col (closes stock)
      OBV := OBV_col (closes stock) (volumes stock)
      Volume_MA20 := rollingMean 20 (volumes stock) }

/-- The last entry of an indicator column, as read by `stock_data.iloc[-1]`:
`none` both for the empty frame and for a trailing `NaN`. -/
def lastO (xs : List (Option ℚ)) : Option ℚ := xs.getLast?.join

/-- `latest["Close"]` (`none` on an empty frame). -/
def latestClose (stock : List Bar) : Option ℚ := stock.getLast?.map Bar.Close

/-- `latest["Volume"]` (`none` on an empty frame). -/
def latestVolume (stock : List Bar) : Option ℚ := stock.getLast?.map Bar.Volume

/-- Python float `a > b` lifted to the `NaN`-as-`none` model: comparisons
involving `NaN` are `False`. -/
def fgt (a b : Option ℚ) : Bool :=
  match a, b with
  | some a, some b => decide (b < a)
  | _, _ => false

/-- `bool(c > m + 2 * sqrt v)` for `v ≥ 0`, expressed without leaving `ℚ`:
`c > m + 2·√v  ↔  m < c ∧ 4·v < (c - m)²` (see `gtUpperBand_eq_true_iff`).
This is the Hawk `bollinger` test `latest["Close"] > latest["Upper_Band"]`
with `Upper_Band = BB_Middle + bb_std * 2` and `v = bb_std²`. -/
def gtUpperBand (c m v : ℚ) : Bool := decide (m < c ∧ 4 * v < (c - m) ^ 2)

/-- Condition `tasi`: `tasi_data["Close"].iloc[-1] > tasi_data["Close"].iloc[-5:].mean()`.
`iloc[-5:]` takes the last `min(5, len)` entries. -/
def cond_tasi (tasiCloses : List ℚ) : Bool :=
  fgt tasiCloses.getLast?
    (some ((tasiCloses.drop (tasiCloses.length - 5)).sum /
      ((tasiCloses.drop (tasiCloses.length - 5)).length : ℚ)))

/-- Condition `obv` (Hawk): `latest["OBV"] > stock_data["OBV"].iloc[-20:].mean()`. -/
def cond_obv (stock : List Bar) : Bool :=
  fgt (OBV_col (closes stock) (volumes stock)).getLast?
    (some ((((OBV_col (closes stock) (volumes stock)).drop
        ((OBV_col (closes stock) (volumes stock)).length - 20)).sum) /
      ((((OBV_col (closes stock) (volumes stock)).drop
        ((OBV_col (closes stock) (volumes stock)).length - 20)).length : ℚ))))

/-- Condition `volume` with factor `k`:
`latest["Volume"] > latest["Volume_MA20"] * k` (`k = 2` for Hawk,
`k = 1.5` for Quick). -/
def cond_volume (k : ℚ) (stock : List Bar) : Bool :=
  fgt (latestVolume stock)
    ((lastO (rollingMean 20 (volumes stock))).map (fun x => x * k))

/-- Condition `breakout`: `latest["Close"] > stock_data["High"].iloc[-11:-1].max()`.
For the `length ≥ 200` series on which the evaluators run, `iloc[-11:-1]`
is the 10 bars preceding the latest bar, the latest bar excluded. -/
def cond_breakout (stock : List Bar) : Bool :=
  fgt (latestClose stock)
    (((highs stock).drop (stock.length - 11)).take 10).max?

/-- Condition `ma` / `ma50`: `latest["Close"] > latest["MA50"]`. -/
def cond_ma50 (stock : List Bar) : Bool :=
  fgt (latestClose stock) (lastO (rollingMean 50 (closes stock)))

/-- Condition `ma20` (Quick): `latest["Close"] > latest["MA20"]`. -/
def cond_ma20 (stock : List Bar) : Bool :=
  fgt (latestClose stock) (lastO (rollingMean 20 (closes stock)))

/-- Condition `rsi` with bounds `(lo, hi)`: `bool(lo < latest["RSI"] < hi)`;
a `NaN` RSI fails the chained comparison. -/
def cond_rsi (lo hi : ℚ) (stock : List Bar) : Bool :=
  match lastO (RSI_col (closes stock)) with
  | some v => decide (lo < v ∧ v < hi)
  | none => false

/-- Condition `macd` (Hawk):
`latest["MACD"] > latest["Signal_Line"] and latest["MACD"] > 0`. -/
def cond_macd_hawk (stock : List Bar) : Bool :=
  fgt (MACD_col (closes stock)).getLast? (Signal_col (closes stock)).getLast? &&
  fgt (MACD_col (closes stock)).getLast? (some 0)

/-- Condition `macd` (Quick): `latest["MACD"] > latest["Signal_Line"]`. -/
def cond_macd_quick (stock : List Bar) : Bool :=
  fgt (MACD_col (closes stock)).getLast? (Signal_col (closes stock)).getLast?

/-- Condition `bollinger` (Hawk): `latest["Close"] > latest["Upper_Band"]`,
via `gtUpperBand` on the rolling variance. -/
def cond_bollinger_hawk (stock : List Bar) : Bool :=
  match latestClose stock, lastO (BB_Middle_col (closes stock)),
      lastO (bb_var_col (closes stock)) with
  | some c, some m, some v => gtUpperBand c m v
  | _, _, _ => false

/-- Condition `bollinger` (Quick): `latest["Close"] > latest["BB_Middle"]`. -/
def cond_bollinger_quick (stock : List Bar) : Bool :=
  fgt (latestClose stock) (lastO (BB_Middle_col (closes stock)))

/-- The nine Hawk conditions, field order = dict order in the source. -/
structure HawkConditions where
  tasi : Bool
  sector : Bool
  obv : Bool
  volume : Bool
  breakout : Bool
  ma : Bool
  rsi : Bool
  macd : Bool
  bollinger : Bool
deriving DecidableEq

/-- `conditions.values()` for the Hawk dict, in insertion order. -/
def HawkConditions.values (c : HawkConditions) : List Bool :=
  [c.tasi, c.sector, c.obv, c.volume, c.breakout, c.ma, c.rsi, c.macd, c.bollinger]

/-- The eight Quick conditions, field order = dict order in the source. -/
structure QuickConditions where
  tasi : Bool
  volume : Bool
  breakout : Bool
  ma20 : Bool
  ma50 : Bool
  rsi : Bool
  macd : Bool
  bollinger : Bool
deriving DecidableEq

/-- `conditions.values()` for the Quick dict, in insertion order. -/
def QuickConditions.values (c : QuickConditions) : List Bool :=
  [c.tasi, c.volume, c.breakout, c.ma20, c.ma50, c.rsi, c.macd, c.bollinger]

/-- The dict returned by `analyze_hawk_strategy`. -/
structure HawkResult where
  conditions : HawkConditions
  conditions_met : ℕ
  total_conditions : ℕ
  percentage : ℚ
  signal : String
deriving DecidableEq

/-- The dict returned by `analyze_quick_strategy`. -/
structure QuickResult where
  conditions : QuickConditions
  conditions_met : ℕ
  total_conditions : ℕ
  percentage : ℚ
  signal : String
deriving DecidableEq

/-- A Python exception escaping an engine function (here only the
`IndexError` from `tasi_data["Close"].iloc[-1]` on an empty index frame). -/
inductive EvalError where
  | indexError
deriving DecidableEq

/-- `round(x, 1)`. -/
def round1 (q : ℚ) : ℚ := (round (q * 10) : ℤ) / 10

/-- `round(x, 2)`. -/
def round2 (q : ℚ) : ℚ := (round (q * 100) : ℤ) / 100

/-- `analyze_hawk_strategy(stock_data, tasi_data, sector_trend)`.
Returns `.ok none` for a series that is empty or shorter than 200 bars
(the source returns `None`); raises (`.error .indexError`) when the length
guard passes but the reference index frame is empty, because the `tasi`
condition's `iloc[-1]` is evaluated first in the dict literal; otherwise
builds the result dict. -/
def analyze_hawk_strategy (stock : List Bar) (tasiCloses : List ℚ)
    (sector_trend : Bool) : Except EvalError (Option HawkResult) :=
  if stock.length < 200 then .ok none
  else match tasiCloses.getLast? with
    | none => .error .indexError
    | some _ =>
      let conds : HawkConditions :=
        { tasi := cond_tasi tasiCloses
          sector := sector_trend
          obv := cond_obv stock
          volume := cond_volume 2 stock
          breakout := cond_breakout stock
          ma := cond_ma50 stock
          rsi := cond_rsi 50 70 stock
          macd := cond_macd_hawk stock
          bollinger := cond_bollinger_hawk stock }
      .ok (some
        { conditions := conds
          conditions_met := conds.values.count true
          total_conditions := 9
          percentage := round1 ((conds.values.count true : ℚ) / 9 * 100)
          signal :=
            if conds.values.count true = 9 then "buy"
            else if 7 ≤ conds.values.count true then "promising"
            else "watch" })

/-- `analyze_quick_strategy(stock_data, tasi_data)`; same control flow as
the Hawk variant, with the eight looser conditions. -/
def analyze_quick_strategy (stock : List Bar) (tasiCloses : List ℚ) :
    Except EvalError (Option QuickResult) :=
  if stock.length < 200 then .ok none
  else match tasiCloses.getLast? with
    | none => .error .indexError
    | some _ =>
      let conds : QuickConditions :=
        { tasi := cond_tasi tasiCloses
          volume := cond_volume 1.5 stock
          breakout := cond_breakout stock
          ma20 := cond_ma20 stock
          ma50 := cond_ma50 stock
          rsi := cond_rsi 45 75 stock
          macd := cond_macd_quick stock
          bollinger := cond_bollinger_quick stock }
      .ok (some
        { conditions := conds
          conditions_met := conds.values.count true
          total_conditions := 8
          percentage := round1 ((conds.values.count true : ℚ) / 8 * 100)
          signal :=
            if conds.values.count true = 8 then "buy"
            else if 6 ≤ conds.values.count true then "promising"
            else "watch" })

/-- The call `analyze_hawk_strategy(stock_data, tasi_data)` made by
`analyze_single_stock` (line 214): the `sector_trend` parameter is left at
its default `True`; no caller in the repository ever passes it. -/
def analyze_hawk_default (stock : List Bar) (tasiCloses : List ℚ) :
    Except EvalError (Option HawkResult) :=
  analyze_hawk_strategy stock tasiCloses true

/-- `calculate_entry_exit_points`'s result dict.  The two risk/reward
fields are `Option ℚ`: `none` models the non-finite float (`NaN` or `inf`)
that numpy produces when the denominator `entry_price - stop_loss`
rounds to zero. -/
structure EntryExitPlan where
  current_price : ℚ
  entry_price : ℚ
  stop_loss : ℚ
  target1 : ℚ
  target2 : ℚ
  risk_reward_1 : Option ℚ
  risk_reward_2 : Option ℚ
deriving DecidableEq

/-- `calculate_entry_exit_points(stock_data)`: `None` only for an empty
frame; otherwise the linear plan derived from the latest close, each level
rounded to 2 decimals, risk/rewards computed from the rounded levels. -/
def calculate_entry_exit_points (stock : List Bar) : Option EntryExitPlan :=
  match stock.getLast? with
  | none => none
  | some latest =>
    some
      { current_price := round2 latest.Close
        entry_price := round2 (latest.Close * 0.995)
        stop_loss := round2 (latest.Close * 0.95)
        target1 := round2 (latest.Close * 1.10)
        target2 := round2 (latest.Close * 1.20)
        risk_reward_1 :=
          if round2 (latest.Close * 0.995) - round2 (latest.Close * 0.95) = 0 then none
          else some (round2 ((round2 (latest.Close * 1.10) - round2 (latest.Close * 0.995)) /
            (round2 (latest.Close * 0.995) - round2 (latest.Close * 0.95))))
        risk_reward_2 :=
          if round2 (latest.Close * 0.995) - round2 (latest.Close * 0.95) = 0 then none
          else some (round2 ((round2 (latest.Close * 1.20) - round2 (latest.Close * 0.995)) /
            (round2 (latest.Close * 0.995) - round2 (latest.Close * 0.95)))) }

/-- One element of the `scan_market()` result list: the report dict built
by `analyze_single_stock`.  (The `indicators` snapshot and the timestamp
play no role in any ranking or claim and are omitted.) -/
structure ScanEntry where
  company : String
  symbol : String
  sector : String
  hawk : Option HawkResult
  quick : Option QuickResult
  entry_exit : Option EntryExitPlan
deriving DecidableEq

/-- The sort key `x['hawk']['percentage']` (the `none` branch is
unreachable after the `if d['hawk']` filter). -/
def hawkPct (x : ScanEntry) : ℚ :=
  match x.hawk with
  | some h => h.percentage
  | none => 0

/-- The sort key `x['quick']['percentage']`. -/
def quickPct (x : ScanEntry) : ℚ :=
  match x.quick with
  | some h => h.percentage
  | none => 0

/-- Stable descending insertion (one step of the model of Python's stable
`sorted(..., reverse=True)`): `a` is placed before the first element whose
key is `≤ key a`, so equal keys keep their original relative order and
`reverse=True` never swaps ties. -/
def insertByDesc {α : Type} (key : α → ℚ) (a : α) : List α → List α
  | [] => [a]
  | b :: bs => if key b ≤ key a then a :: b :: bs else b :: insertByDesc key a bs

/-- Model of Python's `sorted(data, key=key, reverse=True)`: a stable sort
by `key` descending. -/
def sortByDesc {α : Type} (key : α → ℚ) : List α → List α
  | [] => []
  | a :: l => insertByDesc key a (sortByDesc key l)

/-- `api_market_scan`'s `hawk_top` (lines 304-305):
`sorted([d for d in data if d['hawk']], key=..., reverse=True)[:20]`. -/
def hawk_top (data : List ScanEntry) : List ScanEntry :=
  (sortByDesc hawkPct (data.filter (fun d => d.hawk.isSome))).take 20

/-- `api_market_scan`'s `quick_top` (lines 306-307). -/
def quick_top (data : List ScanEntry) : List ScanEntry :=
  (sortByDesc quickPct (data.filter (fun d => d.quick.isSome))).take 20

/-- Spec reference for C7, following the spec's words: the OBV at each bar
is the running total of `+volume` if the close rose over the previous bar,
`-volume` if it fell, `0` if unchanged; the first bar (no prior delta)
contributes `0`; the total is carried across the whole series. -/
def obvSpecStep (prev cur : Bar) : ℚ :=
  if prev.Close < cur.Close then cur.Volume
  else if cur.Close < prev.Close then -cur.Volume
  else 0

/-- Running-total tail of `obvSpec`. -/
def obvSpecAux (total : ℚ) (prev : Bar) : List Bar → List ℚ
  | [] => []
  | b :: bs => (total + obvSpecStep prev b) :: obvSpecAux (total + obvSpecStep prev b) b bs

/-- Spec reference for C7 (see `obvSpecStep`). -/
def obvSpec : List Bar → List ℚ
  | [] => []
  | b :: bs => 0 :: obvSpecAux 0 b bs

/-- Spec reference for C8: the maximum high of the 10 bars immediately
preceding the latest bar, the current bar itself excluded — i.e. the last
10 bars of the series with its last bar dropped. -/
def maxHigh10 (stock : List Bar) : Option ℚ :=
  ((stock.dropLast.drop (stock.dropLast.length - 10)).map Bar.High).max?

/-- `.ok (some r)`-shaped evaluator outcome: the evaluator terminated
normally and produced a strategy result (neither `None` nor an exception). -/
def hawkComputed (r : Except EvalError (Option HawkResult)) : Bool :=
  match r with
  | .ok (some _) => true
  | _ => false

/-- Quick-variant analogue of `hawkComputed`. -/
def quickComputed (r : Except EvalError (Option QuickResult)) : Bool :=
  match r with
  | .ok (some _) => true
  | _ => false

/-! ### Concrete inputs used by witnesses -/

/-- A flat bar (all prices 1, volume 1). -/
def flatBar : Bar := ⟨1, 1, 1, 1, 1⟩

/-- A 200-bar constant series: long enough for every indicator. -/
def stock200 : List Bar := List.replicate 200 flatBar

/-- A 5-bar reference-index close series. -/
def tasi5 : List ℚ := [1, 1, 1, 1, 1]

/-- A 3-bar reference-index close series (fewer than 5 defined closes). -/
def tasi3 : List ℚ := [1, 2, 3]

/-- The Hawk result on `stock200`/`tasi5`: only the defaulted `sector`
condition holds (the constant series trips no other condition, and its RSI
is `NaN`). -/
def hawkR0 : HawkResult :=
  { conditions :=
      { tasi := false, sector := true, obv := false, volume := false,
        breakout := false, ma := false, rsi := false, macd := false,
        bollinger := false }
    conditions_met := 1
    total_conditions := 9
    percentage := 111 / 10
    signal := "watch" }

/-- The Quick result on `stock200`/`tasi5`: no condition holds. -/
def quickR0 : QuickResult :=
  { conditions :=
      { tasi := false, volume := false, breakout := false, ma20 := false,
        ma50 := false, rsi := false, macd := false, bollinger := false }
    conditions_met := 0
    total_conditions := 8
    percentage := 0
    signal := "watch" }

/-- A bar whose close is zero. -/
def zeroBar : Bar := ⟨0, 0, 0, 0, 0⟩

/-- A bar with close 3. -/
def threeBar : Bar := ⟨3, 3, 3, 3, 3⟩

/-- A bar with close 100. -/
def hundredBar : Bar := ⟨100, 100, 100, 100, 1⟩

/-- A bar with close 0.01 (one cent). -/
def centBar : Bar := ⟨0.01, 0.01, 0.01, 0.01, 1⟩

/-- A scan entry for the witness. -/
def entryA : ScanEntry :=
  ⟨"Alpha", "1010", "Banks", some hawkR0, some quickR0, none⟩

/-- A second scan entry with the same percentages. -/
def entryB : ScanEntry :=
  ⟨"Beta", "1020", "Banks", some hawkR0, some quickR0, none⟩

/-- Decidable equality of evaluator outcomes. -/
instance exceptDecEq {ε α : Type} [DecidableEq ε] [DecidableEq α] :
    DecidableEq (Except ε α) := fun a b =>
  match a, b with
  | .ok x, .ok y =>
    match decEq x y with
    | isTrue h => isTrue (by rw [h])
    | isFalse h => isFalse (by intro hh; injection hh; contradiction)
  | .ok _, .error _ => isFalse (by intro hh; exact Except.noConfusion hh)
  | .error _, .ok _ => isFalse (by intro hh; exact Except.noConfusion hh)
  | .error x, .error y =>
    match decEq x y with
    | isTrue h => isTrue (by rw [h])
    | isFalse h => isFalse (by intro hh; injection hh; contradiction)

/-! ### Sanity checks of the embedding on small concrete inputs -/

example : calculate_indicators [] = none := by decide

example :
    (rollingMean 2 [1, 2, 3] : List (Option ℚ)) = [none, some (3/2), some (5/2)] := by
  with_unfolding_all decide

example : (diffCol [1, 3, 2] : List (Option ℚ)) = [none, some 2, some (-1)] := by
  with_unfolding_all decide

example : (cumsum [1, 2, 3] : List ℚ) = [1, 3, 6] := by with_unfolding_all decide

example : (ewmMean 1 [1, 2] : List ℚ) = [1, 2] := by with_unfolding_all decide

example :
    calculate_entry_exit_points [⟨100, 100, 100, 100, 1⟩] =
      some { current_price := 100, entry_price := 99.5, stop_loss := 95,
             target1 := 110, target2 := 120,
             risk_reward_1 := some 2.33, risk_reward_2 := some 4.56 } := by
  with_unfolding_all decide

/-! ### Rounding bounds -/

/-- `round2` misses its argument by at most half a cent. -/
theorem round2_le (q : ℚ) : round2 q ≤ q + 1 / 200 := by
  unfold round2
  have h := abs_sub_round (q * 100)
  rw [abs_le] at h
  have h1 := h.1
  have h2 := h.2
  rw [div_le_iff₀ (by norm_num : (0:ℚ) < 100)]
  linarith

/-- `round2` misses its argument by at most half a cent (lower side). -/
theorem le_round2 (q : ℚ) : q - 1 / 200 ≤ round2 q := by
  unfold round2
  have h := abs_sub_round (q * 100)
  rw [abs_le] at h
  have h1 := h.1
  have h2 := h.2
  rw [le_div_iff₀ (by norm_num : (0:ℚ) < 100)]
  linarith

set_option maxRecDepth 1000000 in
/-- Concrete evaluation of the Hawk strategy on the flat 200-bar series. -/
theorem hawk_eval_const :
    analyze_hawk_strategy stock200 tasi5 true = .ok (some hawkR0) := by
  with_unfolding_all decide

set_option maxRecDepth 1000000 in
/-- Concrete evaluation of the Quick strategy on the flat 200-bar series. -/
theorem quick_eval_const :
    analyze_quick_strategy stock200 tasi5 = .ok (some quickR0) := by
  with_unfolding_all decide

/-! ### C1 — insufficient history -/

/-- C1: on a bar series with fewer than 200 bars (including the empty
series), `calculate_indicators` produces no indicator set, and both
strategy evaluators return `None` ("not computable"), never a partial
result with defaulted fields. -/
theorem C1_insufficient_history (stock : List Bar) (tasiCloses : List ℚ)
    (sector_trend : Bool) (h : stock.length < 200) :
    calculate_indicators stock = none ∧
    analyze_hawk_strategy stock tasiCloses sector_trend = .ok none ∧
    analyze_quick_strategy stock tasiCloses = .ok none := by
  refine ⟨?_, ?_, ?_⟩ <;>
    simp [calculate_indicators, analyze_hawk_strategy, analyze_quick_strategy, h]

/-- Witness for C1 at the empty series. -/
theorem C1_insufficient_history_witness :
    ([] : List Bar).length < 200 ∧
    (calculate_indicators [] = none ∧
     analyze_hawk_strategy [] [2] true = .ok none ∧
     analyze_quick_strategy [] [2] = .ok none) :=
  ⟨by decide, C1_insufficient_history [] [2] true (by decide)⟩

/-! ### C2 — reference index shorter than 5 bars -/

set_option maxRecDepth 1000000 in
/-- C2 counterexample: with a 3-bar reference index (fewer than 5 defined
closes) and a 200-bar stock series, both evaluators still produce a
`StrategyResult` instead of returning "not computable": no minimum length
of the reference index is ever checked (`iloc[-5:].mean()` silently
averages whatever is available). -/
theorem C2_counterexample :
    tasi3.length < 5 ∧
    hawkComputed (analyze_hawk_strategy stock200 tasi3 true) = true ∧
    quickComputed (analyze_quick_strategy stock200 tasi3) = true := by
  refine ⟨by decide, ?_, ?_⟩ <;> with_unfolding_all rfl

/-- C2 (amended): the evaluators never check the reference index length;
whenever the stock series has at least 200 bars and the reference index is
non-empty — even with fewer than 5 bars — both evaluators produce a
`StrategyResult` (the `tasi` condition averages the at most 5 available
closes).  Only an empty reference index fails to produce one. -/
theorem C2_short_index_still_computes (stock : List Bar) (tasiCloses : List ℚ)
    (sector_trend : Bool) (h1 : 200 ≤ stock.length) (h2 : tasiCloses ≠ []) :
    hawkComputed (analyze_hawk_strategy stock tasiCloses sector_trend) = true ∧
    quickComputed (analyze_quick_strategy stock tasiCloses) = true := by
  have h1' : ¬ stock.length < 200 := by omega
  rcases hgl : tasiCloses.getLast? with _ | t
  · rw [List.getLast?_eq_none_iff] at hgl
    exact absurd hgl h2
  · constructor <;>
      simp [analyze_hawk_strategy, analyze_quick_strategy, h1', hgl,
        hawkComputed, quickComputed]

set_option maxRecDepth 1000000 in
/-- Witness for the amended C2 at the 3-bar index. -/
theorem C2_short_index_witness :
    200 ≤ stock200.length ∧ tasi3 ≠ [] ∧
    (hawkComputed (analyze_hawk_strategy stock200 tasi3 true) = true ∧
     quickComputed (analyze_quick_strategy stock200 tasi3) = true) :=
  ⟨by decide, by decide,
    C2_short_index_still_computes stock200 tasi3 true (by decide) (by decide)⟩

/-! ### C5 — entry/exit planner input validation -/

/-- C5 counterexample: for a series whose latest close is `0` the planner
does *not* reject the input: it returns a plan (`isSome`), whose
risk/reward entries are the non-finite float (`none`) produced by the
zero denominator — not a "not computable" marker. -/
theorem C5_counterexample :
    latestClose [zeroBar] = some 0 ∧
    (calculate_entry_exit_points [zeroBar]).isSome = true ∧
    (calculate_entry_exit_points [zeroBar]).map (fun p => p.risk_reward_1) =
      some none ∧
    (calculate_entry_exit_points [zeroBar]).map (fun p => p.risk_reward_2) =
      some none := by
  with_unfolding_all decide

/-- C5 (amended): the planner rejects only the empty series.  On any
non-empty series with latest close `P` — positive or not — it returns the
plan `entry = round2(0.995·P)`, `stop = round2(0.95·P)`,
`target1 = round2(1.10·P)`, `target2 = round2(1.20·P)`, with risk/reward
`round2((target - entry)/(entry - stop))` whenever the rounded denominator
is non-zero, and the non-finite float (`none`) otherwise (which is what a
zero latest close produces). -/
theorem C5_plan_formulas (stock : List Bar) (b : Bar)
    (h : stock.getLast? = some b) :
    (calculate_entry_exit_points stock).map (fun p => p.current_price) =
      some (round2 b.Close) ∧
    (calculate_entry_exit_points stock).map (fun p => p.entry_price) =
      some (round2 (0.995 * b.Close)) ∧
    (calculate_entry_exit_points stock).map (fun p => p.stop_loss) =
      some (round2 (0.95 * b.Close)) ∧
    (calculate_entry_exit_points stock).map (fun p => p.target1) =
      some (round2 (1.10 * b.Close)) ∧
    (calculate_entry_exit_points stock).map (fun p => p.target2) =
      some (round2 (1.20 * b.Close)) ∧
    (calculate_entry_exit_points stock).map (fun p => p.risk_reward_1) =
      some (if round2 (0.995 * b.Close) - round2 (0.95 * b.Close) = 0 then none
        else some (round2 ((round2 (1.10 * b.Close) - round2 (0.995 * b.Close)) /
          (round2 (0.995 * b.Close) - round2 (0.95 * b.Close))))) ∧
    (calculate_entry_exit_points stock).map (fun p => p.risk_reward_2) =
      some (if round2 (0.995 * b.Close) - round2 (0.95 * b.Close) = 0 then none
        else some (round2 ((round2 (1.20 * b.Close) - round2 (0.995 * b.Close)) /
          (round2 (0.995 * b.Close) - round2 (0.95 * b.Close))))) := by
  simp [calculate_entry_exit_points, h, mul_comm]

/-- Witness for the amended C5 at close 3. -/
theorem C5_plan_witness :
    (calculate_entry_exit_points [threeBar]).map (fun p => p.entry_price) =
      some (round2 (0.995 * threeBar.Close)) :=
  (C5_plan_formulas [threeBar] threeBar rfl).2.1

/-! ### C6 — risk/reward ordering -/

/-- C6 counterexample: at the positive price `P = 0.01` both rounded
levels `entry` and `stop` collapse to `0.01`, the risk/reward denominator
is zero and both risk/rewards are non-finite (`none`), so
`riskReward2 > riskReward1` fails (a float comparison against `NaN` is
`False`). -/
theorem C6_counterexample :
    (0 : ℚ) < centBar.Close ∧
    (calculate_entry_exit_points [centBar]).map
      (fun p => fgt p.risk_reward_2 p.risk_reward_1) = some false := by
  with_unfolding_all decide

/-- C6 (amended): for every series whose latest close is at least 1,
the plan's `riskReward2` strictly exceeds its `riskReward1` (both are
finite there: the rounded denominator is at least `0.035`). -/
theorem C6_risk_reward_monotone (stock : List Bar) (b : Bar)
    (h : stock.getLast? = some b) (hP : 1 ≤ b.Close) :
    (calculate_entry_exit_points stock).map
      (fun p => fgt p.risk_reward_2 p.risk_reward_1) = some true := by
  have he1 := round2_le (b.Close * 0.995)
  have he2 := le_round2 (b.Close * 0.995)
  have hs1 := round2_le (b.Close * 0.95)
  have hs2 := le_round2 (b.Close * 0.95)
  have ht11 := round2_le (b.Close * 1.10)
  have ht12 := le_round2 (b.Close * 1.10)
  have ht21 := round2_le (b.Close * 1.20)
  have ht22 := le_round2 (b.Close * 1.20)
  set e := round2 (b.Close * 0.995) with hedef
  set s := round2 (b.Close * 0.95) with hsdef
  set t1 := round2 (b.Close * 1.10) with ht1def
  set t2 := round2 (b.Close * 1.20) with ht2def
  have hd : 0 < e - s := by nlinarith
  have hdne : e - s ≠ 0 := ne_of_gt hd
  have hkey : 1 / 100 < (t2 - t1) / (e - s) := by
    rw [lt_div_iff₀ hd]
    nlinarith
  have hx : (t2 - e) / (e - s) - (t1 - e) / (e - s) = (t2 - t1) / (e - s) := by
    field_simp
  rw [← hx] at hkey
  have h1 := round2_le ((t1 - e) / (e - s))
  have h2 := le_round2 ((t2 - e) / (e - s))
  have hlt : round2 ((t1 - e) / (e - s)) < round2 ((t2 - e) / (e - s)) := by
    linarith
  simp only [calculate_entry_exit_points, h, Option.map_some']
  rw [if_neg hdne, if_neg hdne]
  simpa [fgt] using hlt

/-- Witness for the amended C6 at close 100. -/
theorem C6_risk_reward_witness :
    (calculate_entry_exit_points [hundredBar]).map
      (fun p => fgt p.risk_reward_2 p.risk_reward_1) = some true :=
  C6_risk_reward_monotone [hundredBar] hundredBar rfl
    (by with_unfolding_all decide)

/-! ### C3 — RSI range and the zero-average-loss edge case -/

/-- `diff` preserves the column length. -/
theorem length_diffCol (cs : List ℚ) : (diffCol cs).length = cs.length := by
  cases cs with
  | nil => simp [diffCol]
  | cons c cs' => simp [diffCol, List.length_zipWith]

/-- Rolling means preserve the column length. -/
theorem length_rollingMean (w : ℕ) (xs : List ℚ) :
    (rollingMean w xs).length = xs.length := by
  simp [rollingMean]

/-- The gain column has the length of the close column. -/
theorem length_gainCol (cs : List ℚ) : (gainCol cs).length = cs.length := by
  simp [gainCol, length_diffCol]

/-- The loss column has the length of the close column. -/
theorem length_lossCol (cs : List ℚ) : (lossCol cs).length = cs.length := by
  simp [lossCol, length_diffCol]

/-- Entry `i` of a rolling mean, for `i` in range. -/
theorem getElem?_rollingMean (w : ℕ) (xs : List ℚ) (i : ℕ) (hi : i < xs.length) :
    (rollingMean w xs)[i]? =
      some (if i + 1 < w then none
        else some ((((xs.take (i + 1)).drop (i + 1 - w)).sum) / (w : ℚ))) := by
  simp [rollingMean, List.getElem?_map, List.getElem?_range hi]

/-- Every gain is non-negative. -/
theorem gainCol_nonneg (cs : List ℚ) : ∀ x ∈ gainCol cs, 0 ≤ x := by
  intro x hx
  simp only [gainCol, List.mem_map] at hx
  obtain ⟨d, -, rfl⟩ := hx
  rcases d with - | d
  · simp
  · dsimp only
    split_ifs with hd
    · linarith
    · exact le_refl 0

/-- Every loss entry is non-negative (losses are negated). -/
theorem lossCol_nonneg (cs : List ℚ) : ∀ x ∈ lossCol cs, 0 ≤ x := by
  intro x hx
  simp only [lossCol, List.mem_map] at hx
  obtain ⟨d, -, rfl⟩ := hx
  rcases d with - | d
  · simp
  · dsimp only
    split_ifs with hd
    · linarith
    · exact le_refl 0

/-- A defined rolling-mean entry over a non-negative series is non-negative. -/
theorem rollingMean_last_nonneg (w : ℕ) (xs : List ℚ)
    (hxs : ∀ x ∈ xs, 0 ≤ x) (i : ℕ) (_hi : i < xs.length) :
    0 ≤ (((xs.take (i + 1)).drop (i + 1 - w)).sum) / (w : ℚ) := by
  apply div_nonneg
  · apply List.sum_nonneg
    intro x hx
    exact hxs x (List.mem_of_mem_take (List.mem_of_mem_drop hx))
  · exact_mod_cast Nat.zero_le w

/-- `Option.join` of a `some`. -/
theorem joinSome {α : Type} (a : Option α) : (some a).join = a := by simp

/-- C3: whenever the RSI at the last bar is defined, it lies in `[0, 100]`,
and it equals exactly 100 if and only if the 14-period average loss at that
bar is zero (the unbounded-RS case is mapped to exactly 100). -/
theorem C3_rsi_range (cs : List ℚ) (v : ℚ)
    (h : lastO (RSI_col cs) = some v) :
    0 ≤ v ∧ v ≤ 100 ∧
      (v = 100 ↔ lastO (rollingMean 14 (lossCol cs)) = some 0) := by
  unfold lastO at h ⊢
  have hlen : (RSI_col cs).length = cs.length := by
    simp [RSI_col, List.length_zipWith, length_rollingMean, length_gainCol,
      length_lossCol]
  rcases Nat.eq_zero_or_pos cs.length with h0 | hpos
  · have hnil : RSI_col cs = [] := List.length_eq_zero.mp (by omega)
    rw [hnil] at h
    simp at h
  have hi : cs.length - 1 < cs.length := by omega
  have hG := getElem?_rollingMean 14 (gainCol cs) (cs.length - 1)
    (by rw [length_gainCol]; exact hi)
  have hL := getElem?_rollingMean 14 (lossCol cs) (cs.length - 1)
    (by rw [length_lossCol]; exact hi)
  have hz : (RSI_col cs).getLast? = (RSI_col cs)[cs.length - 1]? := by
    rw [List.getLast?_eq_getElem?, hlen]
  rw [hz, RSI_col, List.getElem?_zipWith, hG, hL] at h
  have hLlast : (rollingMean 14 (lossCol cs)).getLast? =
      (rollingMean 14 (lossCol cs))[cs.length - 1]? := by
    rw [List.getLast?_eq_getElem?, length_rollingMean, length_lossCol]
  rw [hLlast, hL]
  by_cases hw : cs.length - 1 + 1 < 14
  · rw [if_pos hw] at h
    simp at h
  · rw [if_neg hw, if_neg hw] at h
    rw [if_neg hw]
    dsimp only at h
    rw [joinSome] at h
    simp only [Nat.cast_ofNat] at h
    have hgnn : 0 ≤ ((((gainCol cs).take (cs.length - 1 + 1)).drop
        (cs.length - 1 + 1 - 14)).sum) / (14 : ℚ) :=
      rollingMean_last_nonneg 14 (gainCol cs) (gainCol_nonneg cs) (cs.length - 1)
        (by rw [length_gainCol]; exact hi)
    have hlnn : 0 ≤ ((((lossCol cs).take (cs.length - 1 + 1)).drop
        (cs.length - 1 + 1 - 14)).sum) / (14 : ℚ) :=
      rollingMean_last_nonneg 14 (lossCol cs) (lossCol_nonneg cs) (cs.length - 1)
        (by rw [length_lossCol]; exact hi)
    by_cases hl0 : ((((lossCol cs).take (cs.length - 1 + 1)).drop
        (cs.length - 1 + 1 - 14)).sum) / (14 : ℚ) = 0
    · rw [if_pos hl0] at h
      by_cases hg0 : ((((gainCol cs).take (cs.length - 1 + 1)).drop
          (cs.length - 1 + 1 - 14)).sum) / (14 : ℚ) = 0
      · rw [if_pos hg0] at h
        simp at h
      · rw [if_neg hg0] at h
        simp only [Option.some.injEq] at h
        subst h
        refine ⟨by norm_num, le_refl _, ?_⟩
        simp only [joinSome, Nat.cast_ofNat, hl0]
    · rw [if_neg hl0] at h
      simp only [Option.some.injEq] at h
      subst h
      have hlpos : 0 < ((((lossCol cs).take (cs.length - 1 + 1)).drop
          (cs.length - 1 + 1 - 14)).sum) / (14 : ℚ) :=
        lt_of_le_of_ne hlnn (Ne.symm hl0)
      have hrs : 0 ≤ ((((gainCol cs).take (cs.length - 1 + 1)).drop
            (cs.length - 1 + 1 - 14)).sum / (14 : ℚ)) /
          ((((lossCol cs).take (cs.length - 1 + 1)).drop
            (cs.length - 1 + 1 - 14)).sum / (14 : ℚ)) :=
        div_nonneg hgnn (le_of_lt hlpos)
      have hdiv1 : 100 / (1 + ((((gainCol cs).take (cs.length - 1 + 1)).drop
            (cs.length - 1 + 1 - 14)).sum / (14 : ℚ)) /
          ((((lossCol cs).take (cs.length - 1 + 1)).drop
            (cs.length - 1 + 1 - 14)).sum / (14 : ℚ))) ≤ 100 :=
        div_le_self (by norm_num) (by linarith)
      have hdiv2 : 0 < 100 / (1 + ((((gainCol cs).take (cs.length - 1 + 1)).drop
            (cs.length - 1 + 1 - 14)).sum / (14 : ℚ)) /
          ((((lossCol cs).take (cs.length - 1 + 1)).drop
            (cs.length - 1 + 1 - 14)).sum / (14 : ℚ))) :=
        div_pos (by norm_num) (by linarith)
      refine ⟨by linarith, by linarith, ?_⟩
      constructor
      · intro hv
        exfalso
        linarith
      · intro hll
        simp only [joinSome, Nat.cast_ofNat, Option.some.injEq] at hll
        exact absurd hll hl0

/-- Witness for C3: a 15-bar alternating series has average gain and
average loss `1/2`, hence `RS = 1` and `RSI = 50`. -/
theorem C3_rsi_range_witness :
    lastO (RSI_col [1, 2, 1, 2, 1, 2, 1, 2, 1, 2, 1, 2, 1, 2, 1]) = some 50 ∧
    (0 ≤ (50 : ℚ) ∧ (50 : ℚ) ≤ 100 ∧
      ((50 : ℚ) = 100 ↔
        lastO (rollingMean 14
          (lossCol [1, 2, 1, 2, 1, 2, 1, 2, 1, 2, 1, 2, 1, 2, 1])) = some 0)) :=
  ⟨by with_unfolding_all decide,
    C3_rsi_range [1, 2, 1, 2, 1, 2, 1, 2, 1, 2, 1, 2, 1, 2, 1] 50
      (by with_unfolding_all decide)⟩

/-! ### Result extraction for the evaluators -/

/-- Whenever the Hawk evaluator returns a result, the length guard passed
and every field of the result is the corresponding expression of the
source. -/
theorem hawk_extract (stock : List Bar) (tasi : List ℚ) (st : Bool)
    (r : HawkResult) (h : analyze_hawk_strategy stock tasi st = .ok (some r)) :
    200 ≤ stock.length ∧
    r.conditions =
      { tasi := cond_tasi tasi, sector := st, obv := cond_obv stock,
        volume := cond_volume 2 stock, breakout := cond_breakout stock,
        ma := cond_ma50 stock, rsi := cond_rsi 50 70 stock,
        macd := cond_macd_hawk stock, bollinger := cond_bollinger_hawk stock } ∧
    r.conditions_met = r.conditions.values.count true ∧
    r.total_conditions = 9 ∧
    r.signal = (if r.conditions_met = 9 then "buy"
      else if 7 ≤ r.conditions_met then "promising" else "watch") := by
  unfold analyze_hawk_strategy at h
  by_cases hlen : stock.length < 200
  · rw [if_pos hlen] at h
    simp at h
  · rw [if_neg hlen] at h
    rcases hgl : tasi.getLast? with - | t
    · rw [hgl] at h
      simp at h
    · rw [hgl] at h
      simp only [Except.ok.injEq, Option.some.injEq] at h
      subst h
      refine ⟨by omega, rfl, rfl, rfl, rfl⟩

/-- Quick analogue of `hawk_extract`. -/
theorem quick_extract (stock : List Bar) (tasi : List ℚ)
    (r : QuickResult) (h : analyze_quick_strategy stock tasi = .ok (some r)) :
    200 ≤ stock.length ∧
    r.conditions =
      { tasi := cond_tasi tasi, volume := cond_volume 1.5 stock,
        breakout := cond_breakout stock, ma20 := cond_ma20 stock,
        ma50 := cond_ma50 stock, rsi := cond_rsi 45 75 stock,
        macd := cond_macd_quick stock, bollinger := cond_bollinger_quick stock } ∧
    r.conditions_met = r.conditions.values.count true ∧
    r.total_conditions = 8 ∧
    r.signal = (if r.conditions_met = 8 then "buy"
      else if 6 ≤ r.conditions_met then "promising" else "watch") := by
  unfold analyze_quick_strategy at h
  by_cases hlen : stock.length < 200
  · rw [if_pos hlen] at h
    simp at h
  · rw [if_neg hlen] at h
    rcases hgl : tasi.getLast? with - | t
    · rw [hgl] at h
      simp at h
    · rw [hgl] at h
      simp only [Except.ok.injEq, Option.some.injEq] at h
      subst h
      refine ⟨by omega, rfl, rfl, rfl, rfl⟩

/-! ### C4 — condition counts and signal thresholds -/

/-- C4: any produced result has `conditions_met` between 0 and the total
(9 for Hawk, 8 for Quick); the signal is `buy` exactly when all conditions
hold, `promising` exactly on at least 7 (Hawk) / 6 (Quick) but not all,
and `watch` below that. -/
theorem C4_signal_thresholds (stock : List Bar) (tasi : List ℚ) (st : Bool)
    (r : HawkResult) (rq : QuickResult)
    (hH : analyze_hawk_strategy stock tasi st = .ok (some r))
    (hQ : analyze_quick_strategy stock tasi = .ok (some rq)) :
    (r.conditions_met ≤ 9 ∧ r.total_conditions = 9 ∧
      (r.signal = "buy" ↔ r.conditions_met = 9) ∧
      (r.signal = "promising" ↔ 7 ≤ r.conditions_met ∧ r.conditions_met < 9) ∧
      (r.signal = "watch" ↔ r.conditions_met < 7)) ∧
    (rq.conditions_met ≤ 8 ∧ rq.total_conditions = 8 ∧
      (rq.signal = "buy" ↔ rq.conditions_met = 8) ∧
      (rq.signal = "promising" ↔ 6 ≤ rq.conditions_met ∧ rq.conditions_met < 8) ∧
      (rq.signal = "watch" ↔ rq.conditions_met < 6)) := by
  obtain ⟨-, -, hmet, htot, hsig⟩ := hawk_extract stock tasi st r hH
  obtain ⟨-, -, hmetq, htotq, hsigq⟩ := quick_extract stock tasi rq hQ
  have hb : r.conditions_met ≤ 9 := by
    rw [hmet]
    have h1 := List.count_le_length true r.conditions.values
    have h2 : r.conditions.values.length = 9 := by
      simp [HawkConditions.values]
    omega
  have hbq : rq.conditions_met ≤ 8 := by
    rw [hmetq]
    have h1 := List.count_le_length true rq.conditions.values
    have h2 : rq.conditions.values.length = 8 := by
      simp [QuickConditions.values]
    omega
  refine ⟨⟨hb, htot, ?_, ?_, ?_⟩, hbq, htotq, ?_, ?_, ?_⟩ <;>
    first
      | (rw [hsig]; split_ifs <;> simp_all <;> omega)
      | (rw [hsigq]; split_ifs <;> simp_all <;> omega)

/-- Witness for C4 on the flat 200-bar series. -/
theorem C4_signal_thresholds_witness :
    (hawkR0.conditions_met ≤ 9 ∧ hawkR0.total_conditions = 9 ∧
      (hawkR0.signal = "buy" ↔ hawkR0.conditions_met = 9) ∧
      (hawkR0.signal = "promising" ↔
        7 ≤ hawkR0.conditions_met ∧ hawkR0.conditions_met < 9) ∧
      (hawkR0.signal = "watch" ↔ hawkR0.conditions_met < 7)) ∧
    (quickR0.conditions_met ≤ 8 ∧ quickR0.total_conditions = 8 ∧
      (quickR0.signal = "buy" ↔ quickR0.conditions_met = 8) ∧
      (quickR0.signal = "promising" ↔
        6 ≤ quickR0.conditions_met ∧ quickR0.conditions_met < 8) ∧
      (quickR0.signal = "watch" ↔ quickR0.conditions_met < 6)) :=
  C4_signal_thresholds stock200 tasi5 true hawkR0 quickR0
    hawk_eval_const quick_eval_const

/-! ### C8 — the breakout window -/

/-- The source's `iloc[-11:-1]` slice of the high column equals the spec's
window "the 10 bars immediately preceding the latest bar, current bar
excluded" whenever the series has at least 11 bars. -/
theorem codeWindow_eq_maxHigh10 (stock : List Bar) (h : 11 ≤ stock.length) :
    (((highs stock).drop (stock.length - 11)).take 10).max? = maxHigh10 stock := by
  unfold maxHigh10 highs
  rw [List.length_dropLast, List.dropLast_eq_take, List.map_drop, List.map_take]
  have h1 : stock.length - 1 - 10 = stock.length - 11 := by omega
  rw [h1, List.drop_take]
  have h2 : stock.length - 1 - (stock.length - 11) = 10 := by omega
  rw [h2]

/-- C8: in every produced Hawk and Quick result, the breakout condition is
exactly "latest close strictly above the maximum high of the 10 bars
immediately preceding the latest bar (current bar excluded)". -/
theorem C8_breakout_window (stock : List Bar) (tasi : List ℚ) (st : Bool)
    (r : HawkResult) (rq : QuickResult) (c m : ℚ)
    (hH : analyze_hawk_strategy stock tasi st = .ok (some r))
    (hQ : analyze_quick_strategy stock tasi = .ok (some rq))
    (hc : latestClose stock = some c) (hm : maxHigh10 stock = some m) :
    r.conditions.breakout = decide (m < c) ∧
    rq.conditions.breakout = decide (m < c) := by
  obtain ⟨hlen, hconds, -⟩ := hawk_extract stock tasi st r hH
  obtain ⟨-, hcondsq, -⟩ := quick_extract stock tasi rq hQ
  have hwin := codeWindow_eq_maxHigh10 stock (by omega)
  have hbrk : cond_breakout stock = decide (m < c) := by
    unfold cond_breakout
    rw [hwin, hm, hc]
    rfl
  rw [hconds, hcondsq]
  exact ⟨hbrk, hbrk⟩

set_option maxRecDepth 1000000 in
/-- Witness for C8 on the flat 200-bar series: the window maximum is 1,
the latest close is 1, and indeed neither result's breakout fired. -/
theorem C8_breakout_window_witness :
    hawkR0.conditions.breakout = decide ((1 : ℚ) < 1) ∧
    quickR0.conditions.breakout = decide ((1 : ℚ) < 1) :=
  C8_breakout_window stock200 tasi5 true hawkR0 quickR0 1 1
    hawk_eval_const quick_eval_const
    (by with_unfolding_all decide) (by with_unfolding_all decide)

/-! ### C10 — the defaulted sector condition -/

/-- The program's own (only) call to the Hawk evaluator leaves
`sector_trend` at `True`. -/
theorem hawk_default_eval_const :
    analyze_hawk_default stock200 tasi5 = .ok (some hawkR0) :=
  hawk_eval_const

/-- C10: under the program's own invocation (no caller supplies a
sector-momentum input, so `sector_trend` keeps its default `True`), every
produced Hawk result has its `sector` condition `True` and hence at least
one condition met. -/
theorem C10_sector_default (stock : List Bar) (tasi : List ℚ) (r : HawkResult)
    (h : analyze_hawk_default stock tasi = .ok (some r)) :
    r.conditions.sector = true ∧ 1 ≤ r.conditions_met := by
  rw [analyze_hawk_default] at h
  obtain ⟨-, hconds, hmet, -⟩ := hawk_extract stock tasi true r h
  constructor
  · rw [hconds]
  · rw [hmet]
    have : (0 : ℕ) < r.conditions.values.count true := by
      rw [List.count_pos_iff]
      rw [hconds]
      simp [HawkConditions.values]
    omega

/-- Witness for C10 on the flat 200-bar series. -/
theorem C10_sector_default_witness :
    hawkR0.conditions.sector = true ∧ 1 ≤ hawkR0.conditions_met :=
  C10_sector_default stock200 tasi5 hawkR0 hawk_default_eval_const

/-! ### C7 — OBV is the signed-volume running total -/

/-- One signed-volume step of the source pipeline equals the spec's case
split: `sign(close_i - close_(i-1)) * volume_i` is `+volume` on a rise,
`-volume` on a fall, `0` otherwise. -/
theorem npSign_mul_eq_obvSpecStep (prev cur : Bar) :
    npSign (cur.Close - prev.Close) * cur.Volume = obvSpecStep prev cur := by
  unfold npSign obvSpecStep
  rcases lt_trichotomy prev.Close cur.Close with hlt | heq | hgt
  · rw [if_pos (sub_pos.mpr hlt), if_pos hlt, one_mul]
  · rw [heq]
    simp
  · rw [if_neg (by simp [sub_pos]; linarith), if_pos (sub_neg.mpr hgt),
      if_neg (by linarith), if_pos hgt, neg_one_mul]

/-- Accumulator form of the C7 refinement. -/
theorem cumsumAux_signed_eq_obvSpecAux (bs : List Bar) (prev : Bar) (acc : ℚ) :
    cumsumAux acc
      (List.zipWith
        (fun d v => match d with
          | none => 0
          | some d => npSign d * v)
        (List.zipWith (fun cur pr => some (cur - pr))
          (bs.map Bar.Close) (prev.Close :: bs.map Bar.Close))
        (bs.map Bar.Volume)) = obvSpecAux acc prev bs := by
  induction bs generalizing prev acc with
  | nil => rfl
  | cons b bs' ih =>
    simp only [List.map_cons, List.zipWith_cons_cons, cumsumAux, obvSpecAux]
    rw [npSign_mul_eq_obvSpecStep prev b]
    exact congrArg _ (ih b _)

/-- C7: the OBV column computed by the source pipeline
(`sign ∘ diff`, `* volume`, `fillna(0)`, `cumsum`) is exactly the spec's
bar-over-bar signed-volume running total: 0 on the first bar, then
`+volume` when the close rose, `-volume` when it fell, `0` when unchanged,
the total carried across the whole series. -/
theorem C7_obv_refines_spec (bars : List Bar) :
    OBV_col (closes bars) (volumes bars) = obvSpec bars := by
  cases bars with
  | nil => rfl
  | cons b bs =>
    unfold OBV_col closes volumes diffCol obvSpec cumsum
    simp only [List.map_cons]
    rw [show (b.Close :: bs.map Bar.Close).tail = bs.map Bar.Close from rfl]
    simp only [List.zipWith_cons_cons, cumsumAux]
    rw [show ((0 : ℚ) + 0) = 0 from by norm_num]
    exact congrArg _ (cumsumAux_signed_eq_obvSpecAux bs b 0)

/-! ### C9 — top-20 ranking: bounded, descending, stable -/

/-- Membership through a descending insertion. -/
theorem mem_insertByDesc {α : Type} (key : α → ℚ) (a x : α) (l : List α) :
    x ∈ insertByDesc key a l ↔ x = a ∨ x ∈ l := by
  induction l with
  | nil => simp [insertByDesc]
  | cons b bs ih =>
    unfold insertByDesc
    split_ifs with hba
    · simp [List.mem_cons]
    · simp [List.mem_cons, ih]
      tauto

/-- Descending insertion preserves descending-sortedness. -/
theorem pairwise_insertByDesc {α : Type} (key : α → ℚ) (a : α) (l : List α)
    (h : l.Pairwise (fun x y => key y ≤ key x)) :
    (insertByDesc key a l).Pairwise (fun x y => key y ≤ key x) := by
  induction l with
  | nil => simp [insertByDesc]
  | cons b bs ih =>
    rw [List.pairwise_cons] at h
    obtain ⟨hb, hbs⟩ := h
    unfold insertByDesc
    split_ifs with hba
    · rw [List.pairwise_cons]
      refine ⟨?_, by rw [List.pairwise_cons]; exact ⟨hb, hbs⟩⟩
      intro y hy
      rcases List.mem_cons.mp hy with rfl | hy'
      · exact hba
      · exact le_trans (hb y hy') hba
    · rw [List.pairwise_cons]
      constructor
      · intro y hy
        rcases (mem_insertByDesc key a y bs).mp hy with rfl | hy'
        · exact le_of_lt (not_le.mp hba)
        · exact hb y hy'
      · exact ih hbs

/-- The model of Python's stable `sorted(..., reverse=True)` is sorted
descending by its key. -/
theorem pairwise_sortByDesc {α : Type} (key : α → ℚ) (l : List α) :
    (sortByDesc key l).Pairwise (fun x y => key y ≤ key x) := by
  induction l with
  | nil => simp [sortByDesc]
  | cons a l ih => exact pairwise_insertByDesc key a _ ih

/-- Stability of one insertion, per key class: inserting `a` pushes it past
exactly the strictly greater keys, so each key class keeps its order. -/
theorem filter_insertByDesc {α : Type} (key : α → ℚ) (a : α) (l : List α)
    (p : ℚ) :
    (insertByDesc key a l).filter (fun x => decide (key x = p)) =
      if key a = p then a :: l.filter (fun x => decide (key x = p))
      else l.filter (fun x => decide (key x = p)) := by
  induction l with
  | nil =>
    by_cases hap : key a = p <;> simp [insertByDesc, List.filter_cons, hap]
  | cons b bs ih =>
    by_cases hba : key b ≤ key a
    · rw [show insertByDesc key a (b :: bs) = a :: b :: bs from by
        simp only [insertByDesc]; rw [if_pos hba]]
      by_cases hap : key a = p <;> simp [List.filter_cons, hap]
    · rw [show insertByDesc key a (b :: bs) = b :: insertByDesc key a bs from by
        simp only [insertByDesc]; rw [if_neg hba]]
      have hab : key a < key b := not_le.mp hba
      by_cases hap : key a = p
      · have hbp : key b ≠ p := by
          intro hh
          rw [hh, ← hap] at hab
          exact lt_irrefl _ hab
        simp [List.filter_cons, hbp, ih, hap]
      · simp [List.filter_cons, ih, hap]

/-- Stability of the full sort, per key class: restricted to any single
key value, the sorted list is the original list. -/
theorem filter_sortByDesc {α : Type} (key : α → ℚ) (l : List α) (p : ℚ) :
    (sortByDesc key l).filter (fun x => decide (key x = p)) =
      l.filter (fun x => decide (key x = p)) := by
  induction l with
  | nil => rfl
  | cons a l ih =>
    rw [show sortByDesc key (a :: l) = insertByDesc key a (sortByDesc key l)
      from rfl]
    rw [filter_insertByDesc, ih]
    by_cases hap : key a = p <;> simp [List.filter_cons, hap]

/-- Two equal-key elements appear in the sorted list only in an order they
already have in the input (stability, pair form). -/
theorem pair_sublist_of_sorted {α : Type} (key : α → ℚ) (l : List α)
    (a b : α) (hab : key a = key b)
    (hs : [a, b].Sublist (sortByDesc key l)) : [a, b].Sublist l := by
  have h1 := hs.filter (fun x => decide (key x = key a))
  rw [filter_sortByDesc] at h1
  have h2 : [a, b].filter (fun x => decide (key x = key a)) = [a, b] := by
    simp [List.filter_cons, hab]
  rw [h2] at h1
  exact h1.trans (List.filter_sublist l)

/-- C9: each per-strategy top list has at most 20 entries, is ordered by
strategy percentage descending, and any two entries with equal percentage
appear in their original scan order (the ranking is a stable sort). -/
theorem C9_top20_ranking (data : List ScanEntry) :
    ((hawk_top data).length ≤ 20 ∧
     (hawk_top data).Pairwise (fun x y => hawkPct y ≤ hawkPct x) ∧
     ∀ a b, [a, b].Sublist (hawk_top data) → hawkPct a = hawkPct b →
       [a, b].Sublist data) ∧
    ((quick_top data).length ≤ 20 ∧
     (quick_top data).Pairwise (fun x y => quickPct y ≤ quickPct x) ∧
     ∀ a b, [a, b].Sublist (quick_top data) → quickPct a = quickPct b →
       [a, b].Sublist data) := by
  constructor
  · refine ⟨List.length_take_le _ _, ?_, ?_⟩
    · exact List.Pairwise.sublist (List.take_sublist _ _)
        (pairwise_sortByDesc hawkPct _)
    · intro a b hsub hpct
      have h1 : [a, b].Sublist
          (sortByDesc hawkPct (data.filter (fun d => d.hawk.isSome))) :=
        hsub.trans (List.take_sublist _ _)
      exact (pair_sublist_of_sorted hawkPct _ a b hpct h1).trans
        (List.filter_sublist data)
  · refine ⟨List.length_take_le _ _, ?_, ?_⟩
    · exact List.Pairwise.sublist (List.take_sublist _ _)
        (pairwise_sortByDesc quickPct _)
    · intro a b hsub hpct
      have h1 : [a, b].Sublist
          (sortByDesc quickPct (data.filter (fun d => d.quick.isSome))) :=
        hsub.trans (List.take_sublist _ _)
      exact (pair_sublist_of_sorted quickPct _ a b hpct h1).trans
        (List.filter_sublist data)

/-- Witness for C9 on a two-entry scan with tied percentages: the top list
is bounded by 20, and the tied pair keeps its original order. -/
theorem C9_top20_ranking_witness :
    (hawk_top [entryA, entryB]).length ≤ 20 ∧
    [entryA, entryB].Sublist [entryA, entryB] :=
  ⟨(C9_top20_ranking [entryA, entryB]).1.1,
   (C9_top20_ranking [entryA, entryB]).1.2.2 entryA entryB
     (by
       have h : hawk_top [entryA, entryB] = [entryA, entryB] := by
         with_unfolding_all decide
       rw [h])
     rfl⟩

/-! ### Faithfulness of the squared Bollinger comparison -/

/-- `gtUpperBand` is exactly the source's float test
`Close > BB_Middle + bb_std * 2` read over the reals, where `bb_std` is
the square root of the rolling sample variance `v ≥ 0`. -/
theorem gtUpperBand_eq_true_iff (c m v : ℚ) (_hv : 0 ≤ v) :
    gtUpperBand c m v = true ↔
      ((m : ℝ) + 2 * Real.sqrt (v : ℝ) < (c : ℝ)) := by
  unfold gtUpperBand
  rw [decide_eq_true_iff]
  constructor
  · rintro ⟨h1, h2⟩
    have hcm : (0 : ℝ) < (c : ℝ) - (m : ℝ) := by
      have h1' : (m : ℝ) < (c : ℝ) := by exact_mod_cast h1
      linarith
    have h2' : ((4 * v : ℚ) : ℝ) < (((c - m) ^ 2 : ℚ) : ℝ) := by
      exact_mod_cast h2
    push_cast at h2'
    have hs : Real.sqrt (v : ℝ) < ((c : ℝ) - (m : ℝ)) / 2 := by
      rw [Real.sqrt_lt' (by linarith : (0 : ℝ) < ((c : ℝ) - (m : ℝ)) / 2)]
      nlinarith
    linarith
  · intro h
    have hsq := Real.sqrt_nonneg (v : ℝ)
    have hcm : (0 : ℝ) < (c : ℝ) - (m : ℝ) := by linarith
    have hs : Real.sqrt (v : ℝ) < ((c : ℝ) - (m : ℝ)) / 2 := by linarith
    rw [Real.sqrt_lt' (by linarith : (0 : ℝ) < ((c : ℝ) - (m : ℝ)) / 2)] at hs
    constructor
    · exact_mod_cast (by linarith : (m : ℝ) < (c : ℝ))
    · have h4 : ((4 * v : ℚ) : ℝ) < (((c - m) ^ 2 : ℚ) : ℝ) := by
        push_cast
        nlinarith
      exact_mod_cast h4
